import Mathlib

/-!
Verification of the meta-controller supervisor logic of
`controller/generic/metacontroller.go` (package `generic`).

The Go file defines two supervisor variants that manage a map
`key → watchController`:

* `CRDBasedMetaController` — reconciles `GenericController` custom
  resources delivered through an informer/workqueue; its `sync` /
  `syncGenericController` start, stop and recreate watch controllers.
* `ConfigBasedMetaController` — loads a static list of
  `GenericController` configs at construction and starts one watch
  controller per key inside a polling `wait` loop.

The embedding below mirrors the Go control flow directly.  Side effects
on watch controllers (`Stop()`, `Start()`, construction) are recorded in
an explicit event trace; the Go map is an association list with unique
keys; fallible external calls (`newWatchController`, the lister, the
config loader) are passed in as explicit oracles.
-/

/-- Spec portion of a `GenericController` resource (`ctrl.Spec` in Go).
The supervisor treats the spec as opaque data compared with
`apiequality.Semantic.DeepEqual`; we model it as an opaque record with
decidable equality. -/
structure GCtlSpec where
  watchResource : String
  attachments : List String
  hooks : String
  deriving DecidableEq, Repr

/-- A `GenericController` resource: its key fields (namespace/name),
some metadata outside the spec (labels), and the spec. -/
structure GenericController where
  ns : String
  name : String
  labels : List (String × String)
  spec : GCtlSpec
  deriving DecidableEq, Repr

/-- `conf.Key()`: the `"{namespace}/{name}"` key of a definition. -/
def GenericController.Key (c : GenericController) : String :=
  c.ns ++ "/" ++ c.name

/-- A running watch controller as the supervisor sees it: it stores the
`GenericController` config it was built from (`wc.GCtlConfig`). -/
structure watchController where
  GCtlConfig : GenericController
  deriving DecidableEq, Repr

/-- The `map[string]*watchController` field `WatchControllers`,
modelled as an association list. -/
abbrev WCMap := List (String × watchController)

/-- Go map read `m[k]`. -/
def WCMap.find : WCMap → String → Option watchController
  | [], _ => none
  | (k', v) :: rest, k => if k' = k then some v else WCMap.find rest k

/-- Go `delete(m, k)`. -/
def WCMap.erase : WCMap → String → WCMap
  | [], _ => []
  | (k', v) :: rest, k =>
      if k' = k then WCMap.erase rest k else (k', v) :: WCMap.erase rest k

/-- Go map write `m[k] = v`. -/
def WCMap.set (m : WCMap) (k : String) (v : watchController) : WCMap :=
  (k, v) :: m.erase k

/-- The keys registered in the map. -/
def WCMap.keys (m : WCMap) : List String := m.map Prod.fst

/-- Observable side effects on watch controllers, in program order. -/
inductive Event where
  /-- `c.Stop()` on the watch controller registered at `key`. -/
  | stopWC (key : String)
  /-- `newWatchController(...)` succeeded for `key`. -/
  | constructWC (key : String)
  /-- `wc.Start(workerCount)` for `key`. -/
  | startWC (key : String)
  deriving DecidableEq, Repr

/-- Outcome of a sync-style call: the Go `error` return (`none` = nil),
the `WatchControllers` map afterwards, and the emitted event trace. -/
abbrev SyncResult := Option String × WCMap × List Event

/-- Oracle for `newWatchController`: which configs it can build a
watch controller for (`none` = the Go call returned an error, carrying
the error message). -/
abbrev NewWCOracle := GenericController → Option String

/-- The tail of `syncGenericController` (metacontroller.go 461–474):
`wc, err := newWatchController(...); if err != nil { return err };
wc.Start(...); mc.WatchControllers[ctrl.Key()] = wc; return nil`.
`evs` are the events emitted before reaching this point. -/
def constructAndStart (newErr : NewWCOracle) (wcs : WCMap)
    (ctrl : GenericController) (evs : List Event) : SyncResult :=
  match newErr ctrl with
  | some e => (some e, wcs, evs)
  | none =>
      (none, wcs.set ctrl.Key ⟨ctrl⟩,
        evs ++ [Event.constructWC ctrl.Key, Event.startWC ctrl.Key])

/-- `CRDBasedMetaController.syncGenericController` (metacontroller.go
447–475): if a controller is registered under `ctrl.Key()` with a
semantically equal spec, do nothing; otherwise stop and delete the old
one (if any), then construct and start a fresh controller and record
it. -/
def syncGenericController (newErr : NewWCOracle) (wcs : WCMap)
    (ctrl : GenericController) : SyncResult :=
  let key := ctrl.Key
  -- `if c, ok := mc.WatchControllers[ctrl.Key()]; ok { ... }`
  match wcs.find key with
  | some c =>
      if ctrl.spec = c.GCtlConfig.spec then
        -- Nothing has changed.
        (none, wcs, [])
      else
        -- `c.Stop(); delete(mc.WatchControllers, ctrl.Key())`
        constructAndStart newErr (wcs.erase key) ctrl [Event.stopWC key]
  | none => constructAndStart newErr wcs ctrl []

/-- Result of `mc.Lister.GenericControllers(ns).Get(name)`. -/
inductive ListerResult where
  /-- `apierrors.IsNotFound(err)` holds. -/
  | notFound
  /-- some other lister error. -/
  | otherErr (msg : String)
  /-- the definition was found. -/
  | found (ctrl : GenericController)
  deriving DecidableEq, Repr

/-- Oracle for the lister lookup, keyed by `(namespace, name)`. -/
abbrev ListerOracle := String → String → ListerResult

/-- `strings.Split(key, "/")` on the character list: split at every
slash, keeping empty segments. -/
def splitOnSlash : List Char → List (List Char)
  | [] => [[]]
  | c :: rest =>
      match splitOnSlash rest with
      | [] => if c = '/' then [[], []] else [[c]]
      | p :: ps => if c = '/' then [] :: p :: ps else (c :: p) :: ps

/-- `cache.SplitMetaNamespaceKey`: splits `"ns/name"`, or treats the
whole string as a cluster-scoped name; more than one `/` is an error. -/
def splitMetaNamespaceKey (key : String) : Option (String × String) :=
  match (splitOnSlash key.toList).map (fun l => String.mk l) with
  | [name] => some ("", name)
  | [ns, name] => some (ns, name)
  | _ => none

/-- `CRDBasedMetaController.sync` (metacontroller.go 416–443): split the
key; look the definition up; on not-found stop and drop any registered
controller for that key and return nil; on another lister error return
it; otherwise delegate to `syncGenericController`. -/
def MC.sync (newErr : NewWCOracle) (lister : ListerOracle) (wcs : WCMap)
    (key : String) : SyncResult :=
  match splitMetaNamespaceKey key with
  | none => (some "unexpected key format", wcs, [])
  | some (ns, name) =>
      match lister ns name with
      | ListerResult.notFound =>
          match wcs.find key with
          | some _ => (none, wcs.erase key, [Event.stopWC key])
          | none => (none, wcs, [])
      | ListerResult.otherErr e => (some e, wcs, [])
      | ListerResult.found ctrl => syncGenericController newErr wcs ctrl

/-- What `processNextWorkItem` does with the key after `sync` returns. -/
inductive QueueAction where
  /-- `mc.Queue.AddRateLimited(key)` — the key is requeued. -/
  | requeueRateLimited
  /-- `mc.Queue.Forget(key)` — the key's backoff is reset. -/
  | forget
  deriving DecidableEq, Repr

/-- `CRDBasedMetaController.processNextWorkItem` (metacontroller.go
394–413), for one dequeued key: run `sync`; a non-nil error requeues the
key with rate limiting, success forgets it. -/
def processNextWorkItem (newErr : NewWCOracle) (lister : ListerOracle)
    (wcs : WCMap) (key : String) : WCMap × QueueAction × List Event :=
  match MC.sync newErr lister wcs key with
  | (some _, wcs', evs) => (wcs', QueueAction.requeueRateLimited, evs)
  | (none, wcs', evs) => (wcs', QueueAction.forget, evs)

/-- `ConfigBasedMetaController.startAllWatchControllers` (metacontroller.go
237–269): walk the configured definitions in order; skip a definition
whose key is already registered; otherwise construct a watch controller
(returning `(false, err)` immediately on failure, without touching the
map further), start it and record it; report `(true, nil)` after the
whole list. -/
def startAllWatchControllers (newErr : NewWCOracle) :
    List GenericController → WCMap → (Bool × Option String) × WCMap × List Event
  | [], wcs => ((true, none), wcs, [])
  | conf :: rest, wcs =>
      let key := conf.Key
      match wcs.find key with
      | some _ =>
          -- Already added
          startAllWatchControllers newErr rest wcs
      | none =>
          match newErr conf with
          | some e => ((false, some e), wcs, [])
          | none =>
              let r := startAllWatchControllers newErr rest (wcs.set key ⟨conf⟩)
              (r.1, r.2.1, Event.constructWC key :: Event.startWC key :: r.2.2)

/-- The `ConfigBasedMetaController` fields the supervisor logic reads.
Durations are in seconds. -/
structure ConfigBasedMetaController where
  ConfigPath : String
  GenericControllerConfigs : List GenericController
  WaitTimeoutForCondition : Nat
  WaitIntervalForCondition : Nat
  WatchControllers : WCMap
  WorkerCount : Nat
  deriving Repr

/-- What `NewConfigBasedMetaController` produced, plus which of the two
config sources it actually consulted while running. -/
structure NewConfigOutcome where
  result : Except String ConfigBasedMetaController
  /-- `config.New(obj.ConfigPath).Load()` was called. -/
  loadInvoked : Bool
  /-- `obj.GenericControllerAsConfigFn()` was called. -/
  fnInvoked : Bool
  deriving Repr

/-- `NewConfigBasedMetaController` (metacontroller.go 121–178), after
the functional options have set `ConfigPath` to `configPath` and
`GenericControllerAsConfigFn` to the function modelled by `fnResult`
(`none` = the function is nil).  `loadFromPath` models
`config.New(path).Load()` followed by `ListGenericControllers()`.
Defaults: `WaitTimeoutForCondition` 30 minutes (1800 s),
`WaitIntervalForCondition` 1 second.  The loading happens here, inside
construction. -/
def NewConfigBasedMetaController
    (loadFromPath : String → Except String (List GenericController))
    (configPath : String)
    (fnResult : Option (Except String (List GenericController)))
    (workerCount : Nat) : NewConfigOutcome :=
  if configPath = "" ∧ fnResult.isNone = true then
    { result := Except.error
        "New config metacontroller failed: Both ConfigPath & GenericControllerAsConfig cannot be empty"
      loadInvoked := false
      fnInvoked := false }
  else
    -- NOTE: ConfigPath has higher priority
    if configPath ≠ "" then
      match loadFromPath configPath with
      | Except.error e =>
          { result := Except.error e, loadInvoked := true, fnInvoked := false }
      | Except.ok gctls =>
          { result := Except.ok
              { ConfigPath := configPath
                GenericControllerConfigs := gctls
                WaitTimeoutForCondition := 1800
                WaitIntervalForCondition := 1
                WatchControllers := []
                WorkerCount := workerCount }
            loadInvoked := true
            fnInvoked := false }
    else
      match fnResult with
      | none =>
          -- unreachable: excluded by the guard above
          { result := Except.error "nil GenericControllerAsConfigFn"
            loadInvoked := false
            fnInvoked := false }
      | some (Except.error e) =>
          { result := Except.error e, loadInvoked := false, fnInvoked := true }
      | some (Except.ok gctls) =>
          { result := Except.ok
              { ConfigPath := configPath
                GenericControllerConfigs := gctls
                WaitTimeoutForCondition := 1800
                WaitIntervalForCondition := 1
                WatchControllers := []
                WorkerCount := workerCount }
            loadInvoked := false
            fnInvoked := true }

/-- One attempt of the condition polled by `wait`: given the attempt
index (conditions may behave differently over time, e.g. discovery
becoming available) and the current map, it returns the Go
`(bool, error)` pair together with the mutated map and the events of
this pass. -/
abbrev WaitCondition := Nat → WCMap → (Bool × Option String) × WCMap × List Event

/-- `ConfigBasedMetaController.wait` (metacontroller.go 212–233),
with time measured in whole intervals: after `i` sleeps of `interval`
seconds each, `time.Since(start)` is `i * interval`.  Each round calls
the condition; returns nil as soon as it reports `(true, nil)`; once
the elapsed time exceeds `timeout` it returns a timeout error; else it
sleeps one interval and retries.  Termination needs `0 < interval`. -/
def MC.wait (cond : WaitCondition) (timeout interval : Nat)
    (hpos : 0 < interval) (i : Nat) (wcs : WCMap) :
    Option String × WCMap × List Event :=
  let c := cond i wcs
  if c.1.2 = none ∧ c.1.1 = true then
    (none, c.2.1, c.2.2)
  else if timeout < i * interval then
    (some "Wait condition timed out", c.2.1, c.2.2)
  else
    let r := MC.wait cond timeout interval hpos (i + 1) c.2.1
    (r.1, r.2.1, c.2.2 ++ r.2.2)
termination_by timeout + 1 - i
decreasing_by
  rename_i hto
  have hi : i ≤ i * interval := Nat.le_mul_of_pos_right i hpos
  omega

/-- Outcome of `ConfigBasedMetaController.Start`s goroutine
(metacontroller.go 186–202). -/
inductive StartOutcome where
  /-- `glog.Fatalf` on a non-nil error from `wait`. -/
  | fatal (msg : String)
  /-- `wait` returned nil: all watch controllers are running. -/
  | running
  deriving DecidableEq, Repr

/-- `ConfigBasedMetaController.Start` (metacontroller.go 186–202): its
goroutine runs `wait(mc.startAllWatchControllers)` over the configs
stored in `mc` (nothing is loaded here) and treats a wait error as
fatal.  `newErr i` is the `newWatchController` oracle in force during
attempt `i`. -/
def ConfigBasedMetaController.Start (newErr : Nat → NewWCOracle)
    (mc : ConfigBasedMetaController)
    (hpos : 0 < mc.WaitIntervalForCondition) :
    StartOutcome × WCMap × List Event :=
  let r := MC.wait
    (fun i wcs => startAllWatchControllers (newErr i)
      mc.GenericControllerConfigs wcs)
    mc.WaitTimeoutForCondition mc.WaitIntervalForCondition hpos
    0 mc.WatchControllers
  match r.1 with
  | some e => (StartOutcome.fatal e, r.2.1, r.2.2)
  | none => (StartOutcome.running, r.2.1, r.2.2)

/-- The observable steps a supervisor `Stop()` performs, in program
order. -/
inductive StopEvent where
  /-- `close(mc.stopCh)` — signals the CRD worker loop to exit. -/
  | closeStopCh
  /-- `mc.Queue.ShutDown()` — makes `Queue.Get` return quit. -/
  | queueShutDown
  /-- `<-mc.doneCh` — blocks until the supervisor goroutine finished. -/
  | waitSupervisorDone
  /-- `go wc.Stop()` for the watch controller at `key`. -/
  | spawnStopWC (key : String)
  /-- `wg.Wait()` — joins all the spawned child stops. -/
  | joinAllStops
  deriving DecidableEq, Repr

/-- `ConfigBasedMetaController.Stop` (metacontroller.go 272–290): wait
on `doneCh` (no signalling — the wait loop has to finish by itself),
then spawn a `Stop` goroutine per registered watch controller and join
them. -/
def ConfigBasedMetaController.Stop (wcs : WCMap) : List StopEvent :=
  StopEvent.waitSupervisorDone ::
    (wcs.keys.map StopEvent.spawnStopWC ++ [StopEvent.joinAllStops])

/-- `CRDBasedMetaController.Stop` (metacontroller.go 375–392): close
the stop channel and shut the queue down (both cause the worker loop to
exit), wait on `doneCh`, then spawn a `Stop` goroutine per registered
watch controller and join them. -/
def CRDBasedMetaController.Stop (wcs : WCMap) : List StopEvent :=
  StopEvent.closeStopCh :: StopEvent.queueShutDown ::
    StopEvent.waitSupervisorDone ::
      (wcs.keys.map StopEvent.spawnStopWC ++ [StopEvent.joinAllStops])

/-- `CRDBasedMetaController.updateGenericController` (metacontroller.go
489–491): the informer update handler enqueues the key of the current
object (via `enqueueGenericController` / `common.KeyFunc`). -/
def updateGenericController (_old cur : GenericController) : String :=
  cur.Key

/-- The map state at the start of attempt `j` of the wait loop, when
the loop began at attempt `0` in state `s0`. -/
def waitStates (cond : WaitCondition) (s0 : WCMap) : Nat → WCMap
  | 0 => s0
  | j + 1 => (cond j (waitStates cond s0 j)).2.1

/-- Attempt `j` of the wait loop reports `(true, nil)`. -/
def waitAttemptOK (cond : WaitCondition) (s0 : WCMap) (j : Nat) : Prop :=
  (cond j (waitStates cond s0 j)).1.2 = none ∧
    (cond j (waitStates cond s0 j)).1.1 = true

/-! ## Sample inputs for the concrete witnesses -/

/-- A sample spec. -/
def sampleSpec : GCtlSpec :=
  { watchResource := "things", attachments := ["pods"], hooks := "sync" }

/-- A second, different sample spec. -/
def sampleSpec2 : GCtlSpec :=
  { watchResource := "things", attachments := [], hooks := "sync2" }

/-- A sample `GenericController` definition with key `"ns1/c1"`. -/
def sampleCtrl : GenericController :=
  { ns := "ns1", name := "c1", labels := [("app", "a")], spec := sampleSpec }

/-- The same definition with only a label (outside `.Spec`) changed. -/
def sampleCtrlRelabelled : GenericController :=
  { sampleCtrl with labels := [("app", "b")] }

/-- A watch controller built from `sampleCtrl`. -/
def sampleWC : watchController := ⟨sampleCtrl⟩

/-- A `WatchControllers` map with `sampleCtrl` registered. -/
def sampleMap : WCMap := [(sampleCtrl.Key, sampleWC)]

/-- The same definition as `sampleCtrl` (same key) with a changed
spec: a spec-change update, and also a duplicate config entry. -/
def sampleCtrlSpec2 : GenericController :=
  { sampleCtrl with spec := sampleSpec2 }

/-- A second definition with a different key `"ns1/c2"`. -/
def sampleCtrl2 : GenericController :=
  { ns := "ns1", name := "c2", labels := [], spec := sampleSpec2 }

/-- A `newWatchController` oracle that fails exactly on definitions
named `c2`. -/
def newErrFailC2 : NewWCOracle :=
  fun c => if c.name = "c2" then some "boom" else none

/-- A wait condition that always reports `(false, nil)`. -/
def alwaysFalseCond : WaitCondition := fun _ s => ((false, none), s, [])

/-- A wait condition that reports `(true, nil)` exactly at attempt 2. -/
def succeedsAtTwoCond : WaitCondition := fun i s => ((i == 2, none), s, [])

/-! ## Association-list map lemmas -/

theorem WCMap.find_erase_self (m : WCMap) (k : String) :
    (m.erase k).find k = none := by
  induction m with
  | nil => rfl
  | cons p rest ih =>
      obtain ⟨k', v⟩ := p
      by_cases h : k' = k <;> simp [WCMap.erase, WCMap.find, h, ih]

theorem WCMap.find_erase_ne (m : WCMap) (k k' : String) (h : k' ≠ k) :
    (m.erase k).find k' = m.find k' := by
  induction m with
  | nil => rfl
  | cons p rest ih =>
      obtain ⟨k'', v⟩ := p
      by_cases h1 : k'' = k
      · subst h1
        simp [WCMap.erase, WCMap.find, Ne.symm h, ih]
      · simp [WCMap.erase, WCMap.find, h1, ih]

theorem WCMap.find_set_self (m : WCMap) (k : String) (v : watchController) :
    (m.set k v).find k = some v := by
  simp [WCMap.set, WCMap.find]

theorem WCMap.find_set_ne (m : WCMap) (k k' : String) (v : watchController)
    (h : k' ≠ k) : (m.set k v).find k' = m.find k' := by
  simp [WCMap.set, WCMap.find, Ne.symm h, WCMap.find_erase_ne m k k' h]

theorem WCMap.keys_erase_sublist (m : WCMap) (k : String) :
    (m.erase k).keys.Sublist m.keys := by
  induction m with
  | nil => simp [WCMap.erase, WCMap.keys]
  | cons p rest ih =>
      obtain ⟨k', v⟩ := p
      by_cases h : k' = k
      · simpa [WCMap.erase, WCMap.keys, h] using (ih.trans (List.sublist_cons_self k' _))
      · simpa [WCMap.erase, WCMap.keys, h] using ih.cons₂ k'

theorem WCMap.not_mem_keys_erase (m : WCMap) (k : String) :
    k ∉ (m.erase k).keys := by
  induction m with
  | nil => simp [WCMap.erase, WCMap.keys]
  | cons p rest ih =>
      obtain ⟨k', v⟩ := p
      by_cases h : k' = k
      · simpa [WCMap.erase, h] using ih
      · simp only [WCMap.erase, if_neg h, WCMap.keys, List.map_cons,
          List.mem_cons, not_or]
        exact ⟨fun hk => h hk.symm, by simpa [WCMap.keys] using ih⟩

theorem WCMap.nodup_keys_erase (m : WCMap) (k : String)
    (hm : m.keys.Nodup) : (m.erase k).keys.Nodup :=
  hm.sublist (WCMap.keys_erase_sublist m k)

theorem WCMap.nodup_keys_set (m : WCMap) (k : String) (v : watchController)
    (hm : m.keys.Nodup) : (m.set k v).keys.Nodup := by
  have : (m.set k v).keys = k :: (m.erase k).keys := by
    simp [WCMap.set, WCMap.keys]
  rw [this]
  exact List.nodup_cons.mpr ⟨WCMap.not_mem_keys_erase m k, WCMap.nodup_keys_erase m k hm⟩

theorem WCMap.find_eq_none_iff (m : WCMap) (k : String) :
    m.find k = none ↔ k ∉ m.keys := by
  induction m with
  | nil => simp [WCMap.find, WCMap.keys]
  | cons p rest ih =>
      obtain ⟨k', v⟩ := p
      by_cases h : k' = k
      · subst h
        simp [WCMap.find, WCMap.keys]
      · simp [WCMap.find, WCMap.keys, h, Ne.symm h, ih]


/-! ## Claims -/

/-- Claim C2: in the CRD supervisors reconcile of a definition key, if a
watch controller already exists for that key and its stored spec equals
the current definitions spec, `syncGenericController` returns nil,
leaves the `WatchControllers` map unchanged, and performs no stop,
construct or start (empty event trace). -/
theorem C2_sync_noop_on_equal_spec
    (newErr : NewWCOracle) (wcs : WCMap) (ctrl : GenericController)
    (c : watchController)
    (hfind : wcs.find ctrl.Key = some c)
    (hspec : ctrl.spec = c.GCtlConfig.spec) :
    syncGenericController newErr wcs ctrl = (none, wcs, []) := by
  simp [syncGenericController, hfind, hspec]

/-- Witness for C2 at concrete inputs: the registered controller stores
an equal spec, so reconcile is a no-op. -/
theorem C2_sync_noop_on_equal_spec_witness :
    syncGenericController (fun _ => some "boom") sampleMap sampleCtrl
      = (none, sampleMap, []) :=
  C2_sync_noop_on_equal_spec (fun _ => some "boom") sampleMap sampleCtrl
    sampleWC (by decide) (by decide)

/-- Claim C9: an update of a `GenericController` resource that changes
only fields outside `.Spec` (here: labels) while an equal-spec watch
controller is registered for its key leaves that controller untouched —
the update handler enqueues the key, and the resulting `sync` returns
nil with the map unchanged and no stop/construct/start events, because
only `.Spec` enters the semantic comparison. -/
theorem C9_nonspec_update_is_frame
    (newErr : NewWCOracle) (lister : ListerOracle) (wcs : WCMap)
    (old cur : GenericController) (c : watchController)
    (ns name : String)
    (hsplit : splitMetaNamespaceKey cur.Key = some (ns, name))
    (hlister : lister ns name = ListerResult.found cur)
    (hfind : wcs.find cur.Key = some c)
    (hspec : cur.spec = c.GCtlConfig.spec)
    (_hlabels : cur.labels ≠ c.GCtlConfig.labels) :
    updateGenericController old cur = cur.Key ∧
    MC.sync newErr lister wcs (updateGenericController old cur)
      = (none, wcs, []) := by
  refine ⟨rfl, ?_⟩
  simp [updateGenericController, MC.sync, hsplit, hlister,
    syncGenericController, hfind, hspec]

/-- Witness for C9 at concrete inputs: only the labels of `sampleCtrl`
changed; the registered controller is left alone. -/
theorem C9_nonspec_update_is_frame_witness :
    updateGenericController sampleCtrl sampleCtrlRelabelled
        = sampleCtrlRelabelled.Key ∧
    MC.sync (fun _ => some "boom")
        (fun _ _ => ListerResult.found sampleCtrlRelabelled)
        sampleMap (updateGenericController sampleCtrl sampleCtrlRelabelled)
      = (none, sampleMap, []) :=
  C9_nonspec_update_is_frame (fun _ => some "boom")
    (fun _ _ => ListerResult.found sampleCtrlRelabelled)
    sampleMap sampleCtrl sampleCtrlRelabelled sampleWC "ns1" "c1"
    (by decide) rfl (by decide) (by decide) (by decide)

/-- Claim C3: when the CRD supervisors `sync` finds the key absent from
the lister (not-found), it stops the registered watch controller for
that key if one exists, removes it from the map and returns nil; with
no registered controller the map is unchanged; in both cases
`processNextWorkItem` forgets the key instead of requeuing it. -/
theorem C3_sync_not_found_drops_controller
    (newErr : NewWCOracle) (lister : ListerOracle) (wcs : WCMap)
    (key ns name : String)
    (hsplit : splitMetaNamespaceKey key = some (ns, name))
    (hlister : lister ns name = ListerResult.notFound) :
    (∀ c, wcs.find key = some c →
      MC.sync newErr lister wcs key
          = (none, wcs.erase key, [Event.stopWC key]) ∧
      processNextWorkItem newErr lister wcs key
          = (wcs.erase key, QueueAction.forget, [Event.stopWC key])) ∧
    (wcs.find key = none →
      MC.sync newErr lister wcs key = (none, wcs, []) ∧
      processNextWorkItem newErr lister wcs key
          = (wcs, QueueAction.forget, [])) := by
  constructor
  · intro c hc
    constructor <;>
      simp [MC.sync, processNextWorkItem, hsplit, hlister, hc]
  · intro hc
    constructor <;>
      simp [MC.sync, processNextWorkItem, hsplit, hlister, hc]

/-- Witness for C3 at concrete inputs: key `"ns1/c1"` is registered but
the lister reports not-found, so the controller is stopped, dropped and
the key forgotten. -/
theorem C3_sync_not_found_drops_controller_witness :
    MC.sync (fun _ => some "boom") (fun _ _ => ListerResult.notFound)
        sampleMap "ns1/c1"
      = (none, sampleMap.erase "ns1/c1", [Event.stopWC "ns1/c1"]) ∧
    processNextWorkItem (fun _ => some "boom")
        (fun _ _ => ListerResult.notFound) sampleMap "ns1/c1"
      = (sampleMap.erase "ns1/c1", QueueAction.forget,
          [Event.stopWC "ns1/c1"]) :=
  (C3_sync_not_found_drops_controller (fun _ => some "boom")
    (fun _ _ => ListerResult.notFound) sampleMap "ns1/c1" "ns1" "c1"
    (by decide) rfl).1 sampleWC (by decide)

/-- Claim C7: when a `ConfigBasedMetaController` is built with a
non-empty `ConfigPath`, the definitions come from `Load()` on the path
and `GenericControllerAsConfigFn` is never invoked; the function is
consulted only when the path is empty; and with neither source present
construction fails with an error. -/
theorem C7_config_path_overrides_fn
    (loadFromPath : String → Except String (List GenericController))
    (configPath : String)
    (fnResult : Option (Except String (List GenericController)))
    (workerCount : Nat) :
    (configPath ≠ "" →
      (NewConfigBasedMetaController loadFromPath configPath fnResult
          workerCount).fnInvoked = false ∧
      (NewConfigBasedMetaController loadFromPath configPath fnResult
          workerCount).loadInvoked = true ∧
      ∀ gctls, loadFromPath configPath = Except.ok gctls →
        ((NewConfigBasedMetaController loadFromPath configPath fnResult
            workerCount).result.map
          ConfigBasedMetaController.GenericControllerConfigs)
          = Except.ok gctls) ∧
    (configPath = "" → ∀ r, fnResult = some r →
      (NewConfigBasedMetaController loadFromPath configPath fnResult
          workerCount).fnInvoked = true ∧
      (NewConfigBasedMetaController loadFromPath configPath fnResult
          workerCount).loadInvoked = false) ∧
    (configPath = "" → fnResult = none →
      (NewConfigBasedMetaController loadFromPath configPath fnResult
          workerCount).result.isOk = false) := by
  refine ⟨fun hpath => ?_, fun hpath r hr => ?_, fun hpath hr => ?_⟩
  · cases hl : loadFromPath configPath with
    | error e =>
        refine ⟨?_, ?_, ?_⟩ <;>
          simp [NewConfigBasedMetaController, hpath, hl, Except.map]
    | ok g =>
        refine ⟨?_, ?_, ?_⟩ <;>
          simp [NewConfigBasedMetaController, hpath, hl, Except.map]
  · subst hpath; subst hr
    cases r <;> simp [NewConfigBasedMetaController]
  · subst hpath; subst hr
    simp [NewConfigBasedMetaController, Except.isOk, Except.toBool]

/-- Witness for C7 at concrete inputs: with both a non-empty path and a
function present, the path wins and the function stays uninvoked. -/
theorem C7_config_path_overrides_fn_witness :
    (NewConfigBasedMetaController (fun _ => Except.ok [sampleCtrl])
        "/etc/config/metac" (some (Except.ok [])) 2).fnInvoked = false ∧
    (NewConfigBasedMetaController (fun _ => Except.ok [sampleCtrl])
        "/etc/config/metac" (some (Except.ok [])) 2).loadInvoked = true ∧
    ((NewConfigBasedMetaController (fun _ => Except.ok [sampleCtrl])
        "/etc/config/metac" (some (Except.ok [])) 2).result.map
      ConfigBasedMetaController.GenericControllerConfigs)
        = Except.ok [sampleCtrl] := by
  have h := (C7_config_path_overrides_fn (fun _ => Except.ok [sampleCtrl])
    "/etc/config/metac" (some (Except.ok [])) 2).1 (by decide)
  exact ⟨h.1, h.2.1, h.2.2 [sampleCtrl] rfl⟩

/-- Counterexample to claim C8: the claim says the `Load()` call or the
function invocation happens as part of `Start`, not earlier.  In the
code both happen inside `NewConfigBasedMetaController`, i.e. at
construction, before any `Start`: at these concrete inputs the
construction outcome already records the path load (respectively the
function invocation) as having run. -/
theorem C8_counterexample :
    (NewConfigBasedMetaController (fun _ => Except.ok [sampleCtrl])
        "/etc/config/metac" none 1).loadInvoked = true ∧
    (NewConfigBasedMetaController (fun _ => Except.ok [sampleCtrl])
        "" (some (Except.ok [sampleCtrl])) 1).fnInvoked = true := by
  constructor <;> rfl

/-- Claim C8 amended: the Config-driven supervisor loads the full list
of definitions (path `Load()` or the caller-supplied function) inside
`NewConfigBasedMetaController`, at construction; `Start` performs no
loading — its outcome depends only on the fields stored in the
constructed controller. -/
theorem C8_loading_at_construction
    (loadFromPath : String → Except String (List GenericController))
    (configPath : String)
    (fnResult : Option (Except String (List GenericController)))
    (workerCount : Nat) (gctls : List GenericController) :
    (configPath ≠ "" → loadFromPath configPath = Except.ok gctls →
      (NewConfigBasedMetaController loadFromPath configPath fnResult
          workerCount).loadInvoked = true ∧
      ((NewConfigBasedMetaController loadFromPath configPath fnResult
          workerCount).result.map
        ConfigBasedMetaController.GenericControllerConfigs)
          = Except.ok gctls) ∧
    (configPath = "" → fnResult = some (Except.ok gctls) →
      (NewConfigBasedMetaController loadFromPath configPath fnResult
          workerCount).fnInvoked = true ∧
      ((NewConfigBasedMetaController loadFromPath configPath fnResult
          workerCount).result.map
        ConfigBasedMetaController.GenericControllerConfigs)
          = Except.ok gctls) ∧
    (∀ (newErr : Nat → NewWCOracle) (mc mc' : ConfigBasedMetaController)
      (h : 0 < mc.WaitIntervalForCondition)
      (h' : 0 < mc'.WaitIntervalForCondition),
      mc.GenericControllerConfigs = mc'.GenericControllerConfigs →
      mc.WaitTimeoutForCondition = mc'.WaitTimeoutForCondition →
      mc.WaitIntervalForCondition = mc'.WaitIntervalForCondition →
      mc.WatchControllers = mc'.WatchControllers →
      mc.Start newErr h = mc'.Start newErr h') := by
  refine ⟨fun hpath hl => ?_, fun hpath hr => ?_,
    fun newErr mc mc' h h' h1 h2 h3 h4 => ?_⟩
  · constructor <;>
      simp [NewConfigBasedMetaController, hpath, hl, Except.map]
  · subst hpath; subst hr
    constructor <;> simp [NewConfigBasedMetaController, Except.map]
  · cases mc; cases mc'
    simp only at h1 h2 h3 h4
    subst h1; subst h2; subst h3; subst h4
    rfl

/-- Witness for the amended C8 at concrete inputs: the path load runs
during construction and its result is already stored in the
constructed controller. -/
theorem C8_loading_at_construction_witness :
    (NewConfigBasedMetaController (fun _ => Except.ok [sampleCtrl])
        "/etc/config/metac" none 1).loadInvoked = true ∧
    ((NewConfigBasedMetaController (fun _ => Except.ok [sampleCtrl])
        "/etc/config/metac" none 1).result.map
      ConfigBasedMetaController.GenericControllerConfigs)
        = Except.ok [sampleCtrl] :=
  (C8_loading_at_construction (fun _ => Except.ok [sampleCtrl])
    "/etc/config/metac" none 1 [sampleCtrl]).1 (by decide) rfl

/-! ## startAllWatchControllers lemmas -/

/-- Entries already registered are untouched by a pass of
`startAllWatchControllers`: no rollback, no restart. -/
theorem startAll_preserves_entries (newErr : NewWCOracle)
    (confs : List GenericController) (wcs : WCMap) (k : String)
    (w : watchController) (h : wcs.find k = some w) :
    (startAllWatchControllers newErr confs wcs).2.1.find k = some w := by
  induction confs generalizing wcs with
  | nil => simpa [startAllWatchControllers] using h
  | cons conf rest ih =>
      cases hfind : wcs.find conf.Key with
      | some w' => simpa [startAllWatchControllers, hfind] using ih wcs h
      | none =>
          cases hne : newErr conf with
          | some e => simpa [startAllWatchControllers, hfind, hne] using h
          | none =>
              have hk : k ≠ conf.Key := fun hk => by
                rw [hk, hfind] at h; exact Option.noConfusion h
              have h' : (wcs.set conf.Key ⟨conf⟩).find k = some w := by
                rw [WCMap.find_set_ne wcs conf.Key k ⟨conf⟩ hk]; exact h
              simpa [startAllWatchControllers, hfind, hne] using
                ih (wcs.set conf.Key ⟨conf⟩) h'

/-- After a pass that reports `(true, nil)`, every configured key is
registered. -/
theorem startAll_success_all_registered (newErr : NewWCOracle)
    (confs : List GenericController) (wcs : WCMap)
    (hs : (startAllWatchControllers newErr confs wcs).1.1 = true) :
    ∀ conf ∈ confs,
      ((startAllWatchControllers newErr confs wcs).2.1.find conf.Key).isSome
        = true := by
  induction confs generalizing wcs with
  | nil => intro conf hconf; cases hconf
  | cons c rest ih =>
      intro conf hconf
      cases hfind : wcs.find c.Key with
      | some w =>
          rw [List.mem_cons] at hconf
          cases hconf with
          | inl hc =>
              subst hc
              have := startAll_preserves_entries newErr rest wcs conf.Key w hfind
              simp [startAllWatchControllers, hfind, this]
          | inr hc =>
              have hs' : (startAllWatchControllers newErr rest wcs).1.1 = true := by
                simpa [startAllWatchControllers, hfind] using hs
              simpa [startAllWatchControllers, hfind] using ih wcs hs' conf hc
      | none =>
          cases hne : newErr c with
          | some e => simp [startAllWatchControllers, hfind, hne] at hs
          | none =>
              have hset : (wcs.set c.Key ⟨c⟩).find c.Key = some ⟨c⟩ :=
                WCMap.find_set_self wcs c.Key ⟨c⟩
              have hs' :
                  (startAllWatchControllers newErr rest
                      (wcs.set c.Key ⟨c⟩)).1.1 = true := by
                simpa [startAllWatchControllers, hfind, hne] using hs
              rw [List.mem_cons] at hconf
              cases hconf with
              | inl hc =>
                  subst hc
                  have := startAll_preserves_entries newErr rest
                    (wcs.set conf.Key ⟨conf⟩) conf.Key ⟨conf⟩ hset
                  simp [startAllWatchControllers, hfind, hne, this]
              | inr hc =>
                  simpa [startAllWatchControllers, hfind, hne] using
                    ih (wcs.set c.Key ⟨c⟩) hs' conf hc

/-- After a failing pass, some configured key is still unregistered
(the one whose construction failed). -/
theorem startAll_failure_exists_unregistered (newErr : NewWCOracle)
    (confs : List GenericController) (wcs : WCMap)
    (hs : (startAllWatchControllers newErr confs wcs).1.1 = false) :
    ∃ conf ∈ confs,
      (startAllWatchControllers newErr confs wcs).2.1.find conf.Key
        = none := by
  induction confs generalizing wcs with
  | nil => simp [startAllWatchControllers] at hs
  | cons c rest ih =>
      cases hfind : wcs.find c.Key with
      | some w =>
          have hs' : (startAllWatchControllers newErr rest wcs).1.1 = false := by
            simpa [startAllWatchControllers, hfind] using hs
          obtain ⟨conf, hconf, hnone⟩ := ih wcs hs'
          refine ⟨conf, List.mem_cons_of_mem c hconf, ?_⟩
          simpa [startAllWatchControllers, hfind] using hnone
      | none =>
          cases hne : newErr c with
          | some e =>
              refine ⟨c, List.mem_cons_self c rest, ?_⟩
              simp [startAllWatchControllers, hfind, hne]
          | none =>
              have hs' :
                  (startAllWatchControllers newErr rest
                      (wcs.set c.Key ⟨c⟩)).1.1 = false := by
                simpa [startAllWatchControllers, hfind, hne] using hs
              obtain ⟨conf, hconf, hnone⟩ := ih (wcs.set c.Key ⟨c⟩) hs'
              refine ⟨conf, List.mem_cons_of_mem c hconf, ?_⟩
              simpa [startAllWatchControllers, hfind, hne] using hnone

/-- Among configured definitions sharing a key, the first one in the
list is the one registered (later duplicates are skipped, never
merged): after a successful pass starting with the key unregistered,
the map holds a controller built from the first config with that key. -/
theorem startAll_first_config_wins (newErr : NewWCOracle)
    (confs : List GenericController) (wcs : WCMap) (k : String)
    (hnone : wcs.find k = none)
    (hs : (startAllWatchControllers newErr confs wcs).1.1 = true) :
    (startAllWatchControllers newErr confs wcs).2.1.find k
      = (confs.find? (fun c => c.Key == k)).map
          (fun c => watchController.mk c) := by
  induction confs generalizing wcs with
  | nil => simpa [startAllWatchControllers, List.find?] using hnone
  | cons c rest ih =>
      cases hfind : wcs.find c.Key with
      | some w =>
          have hkey : ¬(c.Key = k) := by
            intro h; rw [h, hnone] at hfind; exact Option.noConfusion hfind
          have hbeq : (c.Key == k) = false := by
            simpa using hkey
          have hs' : (startAllWatchControllers newErr rest wcs).1.1 = true := by
            simpa [startAllWatchControllers, hfind] using hs
          have := ih wcs hnone hs'
          simpa [startAllWatchControllers, hfind, List.find?, hbeq] using this
      | none =>
          cases hne : newErr c with
          | some e => simp [startAllWatchControllers, hfind, hne] at hs
          | none =>
              by_cases hkey : c.Key = k
              · subst hkey
                have hset := WCMap.find_set_self wcs c.Key (watchController.mk c)
                have hpres := startAll_preserves_entries newErr rest
                  (wcs.set c.Key (watchController.mk c)) c.Key
                  (watchController.mk c) hset
                simpa [startAllWatchControllers, hfind, hne, List.find?]
                  using hpres
              · have hbeq : (c.Key == k) = false := by
                  simpa using hkey
                have hset : (wcs.set c.Key (watchController.mk c)).find k
                    = none := by
                  rw [WCMap.find_set_ne wcs c.Key k _ (Ne.symm hkey)]
                  exact hnone
                have hs' : (startAllWatchControllers newErr rest
                    (wcs.set c.Key (watchController.mk c))).1.1 = true := by
                  simpa [startAllWatchControllers, hfind, hne] using hs
                have := ih (wcs.set c.Key (watchController.mk c)) hset hs'
                simpa [startAllWatchControllers, hfind, hne, List.find?, hbeq]
                  using this

/-- A pass never emits a start event for a key that is already
registered when the pass begins: running keys are skipped, not
restarted. -/
theorem startAll_no_start_when_registered (newErr : NewWCOracle)
    (confs : List GenericController) (wcs : WCMap) (k : String)
    (hreg : (wcs.find k).isSome = true) :
    Event.startWC k ∉ (startAllWatchControllers newErr confs wcs).2.2 := by
  induction confs generalizing wcs with
  | nil => simp [startAllWatchControllers]
  | cons c rest ih =>
      cases hfind : wcs.find c.Key with
      | some w => simpa [startAllWatchControllers, hfind] using ih wcs hreg
      | none =>
          cases hne : newErr c with
          | some e => simp [startAllWatchControllers, hfind, hne]
          | none =>
              have hkey : k ≠ c.Key := by
                intro h; rw [h, hfind] at hreg; simp at hreg
              have hreg' : ((wcs.set c.Key (watchController.mk c)).find
                  k).isSome = true := by
                rw [WCMap.find_set_ne wcs c.Key k _ hkey]; exact hreg
              have hmem := ih (wcs.set c.Key (watchController.mk c)) hreg'
              simpa [startAllWatchControllers, hfind, hne, hkey] using hmem

/-- Any single pass starts a given key at most once. -/
theorem startAll_start_count_le_one (newErr : NewWCOracle)
    (confs : List GenericController) (wcs : WCMap) (k : String) :
    ((startAllWatchControllers newErr confs wcs).2.2.count
        (Event.startWC k)) ≤ 1 := by
  induction confs generalizing wcs with
  | nil => simp [startAllWatchControllers]
  | cons c rest ih =>
      cases hfind : wcs.find c.Key with
      | some w => simpa [startAllWatchControllers, hfind] using ih wcs
      | none =>
          cases hne : newErr c with
          | some e => simp [startAllWatchControllers, hfind, hne]
          | none =>
              by_cases hkey : k = c.Key
              · rw [hkey]
                have hreg : ((wcs.set c.Key (watchController.mk c)).find
                    c.Key).isSome = true := by
                  rw [WCMap.find_set_self]; rfl
                have hzero : ((startAllWatchControllers newErr rest
                    (wcs.set c.Key (watchController.mk c))).2.2.count
                      (Event.startWC c.Key)) = 0 :=
                  List.count_eq_zero.mpr
                    (startAll_no_start_when_registered newErr rest
                      (wcs.set c.Key (watchController.mk c)) c.Key hreg)
                simp [startAllWatchControllers, hfind, hne, List.count_cons,
                  hzero]
              · have := ih (wcs.set c.Key (watchController.mk c))
                simpa [startAllWatchControllers, hfind, hne, List.count_cons,
                  hkey] using this

/-- A pass preserves uniqueness of the registered keys. -/
theorem startAll_nodup_keys (newErr : NewWCOracle)
    (confs : List GenericController) (wcs : WCMap)
    (h : wcs.keys.Nodup) :
    (startAllWatchControllers newErr confs wcs).2.1.keys.Nodup := by
  induction confs generalizing wcs with
  | nil => simpa [startAllWatchControllers] using h
  | cons c rest ih =>
      cases hfind : wcs.find c.Key with
      | some w => simpa [startAllWatchControllers, hfind] using ih wcs h
      | none =>
          cases hne : newErr c with
          | some e => simpa [startAllWatchControllers, hfind, hne] using h
          | none =>
              simpa [startAllWatchControllers, hfind, hne] using
                ih (wcs.set c.Key (watchController.mk c))
                  (WCMap.nodup_keys_set wcs c.Key _ h)

/-- When the pass reaches a definition whose construction fails —
every earlier definition having been skipped or started, and the
failing key not yet registered — it returns right there: the result
carries the failing error, the map accumulated over the earlier
definitions (no rollback) and only their events (the rest of the list
is not attempted). -/
theorem startAll_stops_at_failure (newErr : NewWCOracle)
    (pre : List GenericController) (conf : GenericController)
    (post : List GenericController) (wcs : WCMap) (e : String)
    (hpre : (startAllWatchControllers newErr pre wcs).1.1 = true)
    (hnone : (startAllWatchControllers newErr pre wcs).2.1.find conf.Key
      = none)
    (hne : newErr conf = some e) :
    startAllWatchControllers newErr (pre ++ conf :: post) wcs
      = ((false, some e),
          (startAllWatchControllers newErr pre wcs).2.1,
          (startAllWatchControllers newErr pre wcs).2.2) := by
  induction pre generalizing wcs with
  | nil =>
      have hw : wcs.find conf.Key = none := by
        simpa [startAllWatchControllers] using hnone
      simp [startAllWatchControllers, hw, hne]
  | cons c pre' ih =>
      cases hfind : wcs.find c.Key with
      | some w =>
          have hpre' : (startAllWatchControllers newErr pre' wcs).1.1
              = true := by
            simpa [startAllWatchControllers, hfind] using hpre
          have hnone' : (startAllWatchControllers newErr pre'
              wcs).2.1.find conf.Key = none := by
            simpa [startAllWatchControllers, hfind] using hnone
          have := ih wcs hpre' hnone'
          simpa [startAllWatchControllers, hfind] using this
      | none =>
          cases hne2 : newErr c with
          | some e2 => simp [startAllWatchControllers, hfind, hne2] at hpre
          | none =>
              have hpre' : (startAllWatchControllers newErr pre'
                  (wcs.set c.Key (watchController.mk c))).1.1 = true := by
                simpa [startAllWatchControllers, hfind, hne2] using hpre
              have hnone' : (startAllWatchControllers newErr pre'
                  (wcs.set c.Key (watchController.mk c))).2.1.find conf.Key
                    = none := by
                simpa [startAllWatchControllers, hfind, hne2] using hnone
              have heq := ih (wcs.set c.Key (watchController.mk c)) hpre'
                hnone'
              simp [List.cons_append, startAllWatchControllers, hfind, hne2,
                heq]

/-! ## wait-loop lemmas -/

/-- One-step unfolding of `MC.wait`. -/
theorem MC.wait_unfold (cond : WaitCondition) (timeout interval : Nat)
    (hpos : 0 < interval) (i : Nat) (wcs : WCMap) :
    MC.wait cond timeout interval hpos i wcs =
      if (cond i wcs).1.2 = none ∧ (cond i wcs).1.1 = true then
        (none, (cond i wcs).2.1, (cond i wcs).2.2)
      else if timeout < i * interval then
        (some "Wait condition timed out", (cond i wcs).2.1, (cond i wcs).2.2)
      else
        ((MC.wait cond timeout interval hpos (i + 1) (cond i wcs).2.1).1,
          (MC.wait cond timeout interval hpos (i + 1) (cond i wcs).2.1).2.1,
          (cond i wcs).2.2 ++
            (MC.wait cond timeout interval hpos (i + 1)
              (cond i wcs).2.1).2.2) := by
  rw [MC.wait]


/-- The wait loop preserves any property of the map that every single
condition attempt preserves (in particular across retries). -/
theorem MC.wait_preserves (cond : WaitCondition) (timeout interval : Nat)
    (hpos : 0 < interval) (P : WCMap → Prop)
    (hstep : ∀ i s, P s → P (cond i s).2.1) :
    ∀ i s, P s → P (MC.wait cond timeout interval hpos i s).2.1 := by
  have main : ∀ n i s, timeout + 1 - i ≤ n → P s →
      P (MC.wait cond timeout interval hpos i s).2.1 := by
    intro n
    induction n with
    | zero =>
        intro i s hle hP
        have hto : timeout < i * interval := by
          have : i ≤ i * interval := Nat.le_mul_of_pos_right i hpos
          omega
        rw [MC.wait_unfold]
        by_cases h1 : (cond i s).1.2 = none ∧ (cond i s).1.1 = true
        · simpa [h1] using hstep i s hP
        · simpa [h1, hto] using hstep i s hP
    | succ n ihn =>
        intro i s hle hP
        rw [MC.wait_unfold]
        by_cases h1 : (cond i s).1.2 = none ∧ (cond i s).1.1 = true
        · simpa [h1] using hstep i s hP
        · by_cases hto : timeout < i * interval
          · simpa [h1, hto] using hstep i s hP
          · have hi : i ≤ timeout := by
              have : i ≤ i * interval := Nat.le_mul_of_pos_right i hpos
              omega
            have : timeout + 1 - (i + 1) ≤ n := by omega
            simpa [h1, hto] using
              ihn (i + 1) (cond i s).2.1 this (hstep i s hP)
  intro i s hP
  exact main (timeout + 1 - i) i s le_rfl hP

/-- If every attempt of the loop (along its actual state sequence)
fails, the wait loop terminates with the timeout error. -/
theorem MC.wait_times_out (cond : WaitCondition) (timeout interval : Nat)
    (hpos : 0 < interval) (s0 : WCMap)
    (hfail : ∀ j, ¬waitAttemptOK cond s0 j) :
    (MC.wait cond timeout interval hpos 0 s0).1
      = some "Wait condition timed out" := by
  have main : ∀ n i, timeout + 1 - i ≤ n →
      (MC.wait cond timeout interval hpos i (waitStates cond s0 i)).1
        = some "Wait condition timed out" := by
    intro n
    induction n with
    | zero =>
        intro i hle
        have hto : timeout < i * interval := by
          have : i ≤ i * interval := Nat.le_mul_of_pos_right i hpos
          omega
        rw [MC.wait_unfold]
        have h1 := hfail i
        rw [waitAttemptOK] at h1
        simp [h1, hto]
    | succ n ihn =>
        intro i hle
        rw [MC.wait_unfold]
        by_cases hto : timeout < i * interval
        · have h1 := hfail i
          rw [waitAttemptOK] at h1
          simp [h1, hto]
        · have h1 : ¬((cond i (waitStates cond s0 i)).1.2 = none ∧
              (cond i (waitStates cond s0 i)).1.1 = true) := hfail i
          have hi : i ≤ timeout := by
            have : i ≤ i * interval := Nat.le_mul_of_pos_right i hpos
            omega
          have hn : timeout + 1 - (i + 1) ≤ n := by omega
          have hrec := ihn (i + 1) hn
          rw [waitStates] at hrec
          simpa [h1, hto] using hrec
  simpa [waitStates] using main (timeout + 1) 0 (by omega)

/-- If some attempt `m` reports `(true, nil)` while no earlier attempt
succeeded and no earlier attempt had already exceeded the timeout, the
wait loop returns nil. -/
theorem MC.wait_returns_nil (cond : WaitCondition) (timeout interval : Nat)
    (hpos : 0 < interval) (s0 : WCMap) (m : Nat)
    (hok : waitAttemptOK cond s0 m)
    (hfail : ∀ j, j < m → ¬waitAttemptOK cond s0 j)
    (htime : ∀ j, j < m → ¬timeout < j * interval) :
    (MC.wait cond timeout interval hpos 0 s0).1 = none := by
  have main : ∀ n i, m - i ≤ n → i ≤ m →
      (MC.wait cond timeout interval hpos i (waitStates cond s0 i)).1
        = none := by
    intro n
    induction n with
    | zero =>
        intro i hle hi
        have him : i = m := by omega
        subst him
        rw [MC.wait_unfold]
        simp [hok.1, hok.2]
    | succ n ihn =>
        intro i hle hi
        by_cases him : i = m
        · subst him
          rw [MC.wait_unfold]
          simp [hok.1, hok.2]
        · have hlt : i < m := by omega
          have h1 : ¬((cond i (waitStates cond s0 i)).1.2 = none ∧
              (cond i (waitStates cond s0 i)).1.1 = true) := hfail i hlt
          have hto : ¬timeout < i * interval := htime i hlt
          have hn : m - (i + 1) ≤ n := by omega
          have hrec := ihn (i + 1) hn (by omega)
          rw [waitStates] at hrec
          rw [MC.wait_unfold]
          simpa [h1, hto] using hrec
  simpa [waitStates] using main m 0 (by omega) (by omega)

/-! ## Reconcile lemmas for the CRD supervisor -/

/-- One reconcile of a definition keeps the registered keys unique. -/
theorem syncGC_nodup_keys (newErr : NewWCOracle) (wcs : WCMap)
    (ctrl : GenericController) (h : wcs.keys.Nodup) :
    (syncGenericController newErr wcs ctrl).2.1.keys.Nodup := by
  cases hfind : wcs.find ctrl.Key with
  | some c =>
      by_cases hspec : ctrl.spec = c.GCtlConfig.spec
      · simpa [syncGenericController, hfind, hspec] using h
      · cases hne : newErr ctrl with
        | some e =>
            simpa [syncGenericController, constructAndStart, hfind, hspec,
              hne] using WCMap.nodup_keys_erase wcs ctrl.Key h
        | none =>
            simpa [syncGenericController, constructAndStart, hfind, hspec,
              hne] using
              WCMap.nodup_keys_set (wcs.erase ctrl.Key) ctrl.Key
                (watchController.mk ctrl)
                (WCMap.nodup_keys_erase wcs ctrl.Key h)
  | none =>
      cases hne : newErr ctrl with
      | some e =>
          simpa [syncGenericController, constructAndStart, hfind, hne]
            using h
      | none =>
          simpa [syncGenericController, constructAndStart, hfind, hne] using
            WCMap.nodup_keys_set wcs ctrl.Key (watchController.mk ctrl) h

/-- One `sync` of a key keeps the registered keys unique. -/
theorem mcSync_nodup_keys (newErr : NewWCOracle) (lister : ListerOracle)
    (wcs : WCMap) (key : String) (h : wcs.keys.Nodup) :
    (MC.sync newErr lister wcs key).2.1.keys.Nodup := by
  cases hsplit : splitMetaNamespaceKey key with
  | none => simpa [MC.sync, hsplit] using h
  | some p =>
      obtain ⟨ns, name⟩ := p
      cases hl : lister ns name with
      | notFound =>
          cases hfind : wcs.find key with
          | some c =>
              simpa [MC.sync, hsplit, hl, hfind] using
                WCMap.nodup_keys_erase wcs key h
          | none => simpa [MC.sync, hsplit, hl, hfind] using h
      | otherErr e => simpa [MC.sync, hsplit, hl] using h
      | found ctrl =>
          simpa [MC.sync, hsplit, hl] using
            syncGC_nodup_keys newErr wcs ctrl h

/-- The event trace of one reconcile has one of four shapes. -/
theorem syncGC_trace_shape (newErr : NewWCOracle) (wcs : WCMap)
    (ctrl : GenericController) :
    (syncGenericController newErr wcs ctrl).2.2 = [] ∨
    (syncGenericController newErr wcs ctrl).2.2
      = [Event.stopWC ctrl.Key] ∨
    (syncGenericController newErr wcs ctrl).2.2
      = [Event.stopWC ctrl.Key, Event.constructWC ctrl.Key,
          Event.startWC ctrl.Key] ∨
    (syncGenericController newErr wcs ctrl).2.2
      = [Event.constructWC ctrl.Key, Event.startWC ctrl.Key] := by
  cases hfind : wcs.find ctrl.Key with
  | some c =>
      by_cases hspec : ctrl.spec = c.GCtlConfig.spec
      · left; simp [syncGenericController, hfind, hspec]
      · cases hne : newErr ctrl with
        | some e =>
            right; left
            simp [syncGenericController, constructAndStart, hfind, hspec,
              hne]
        | none =>
            right; right; left
            simp [syncGenericController, constructAndStart, hfind, hspec,
              hne]
  | none =>
      cases hne : newErr ctrl with
      | some e =>
          left; simp [syncGenericController, constructAndStart, hfind, hne]
      | none =>
          right; right; right
          simp [syncGenericController, constructAndStart, hfind, hne]

/-- In one reconcile, every stop event for a key precedes every start
event for that key: the old controller is stopped before a new one is
started. -/
theorem syncGC_stop_before_start (newErr : NewWCOracle) (wcs : WCMap)
    (ctrl : GenericController) (k : String) (i j : Nat)
    (hgi : (syncGenericController newErr wcs ctrl).2.2.get? i
      = some (Event.stopWC k))
    (hgj : (syncGenericController newErr wcs ctrl).2.2.get? j
      = some (Event.startWC k)) : i < j := by
  rcases syncGC_trace_shape newErr wcs ctrl with h | h | h | h <;>
    rw [h] at hgi hgj
  · simp at hgi
  · rcases j with _ | j
    all_goals simp [List.get?] at hgj
  · rcases i with _ | _ | _ | i
    · rcases j with _ | _ | _ | j <;> simp [List.get?] at hgj <;> omega
    · simp [List.get?] at hgi
    · simp [List.get?] at hgi
    · simp [List.get?] at hgi
  · rcases i with _ | _ | i <;> simp [List.get?] at hgi

/-- Claim C1: at most one watch controller is registered per definition
key — reconciles and passes keep the `WatchControllers` keys unique; a
spec-change reconcile stops the old controller before the new one is
started (every stop event for a key precedes every start event for it);
and a Config pass never starts a controller for a key that is already
registered. -/
theorem C1_one_controller_per_key
    (newErr : NewWCOracle) (lister : ListerOracle) (wcs : WCMap)
    (ctrl : GenericController) (key k : String)
    (confs : List GenericController) (i j : Nat)
    (hnd : wcs.keys.Nodup) :
    (syncGenericController newErr wcs ctrl).2.1.keys.Nodup ∧
    (MC.sync newErr lister wcs key).2.1.keys.Nodup ∧
    (startAllWatchControllers newErr confs wcs).2.1.keys.Nodup ∧
    ((syncGenericController newErr wcs ctrl).2.2.get? i
        = some (Event.stopWC k) →
      (syncGenericController newErr wcs ctrl).2.2.get? j
        = some (Event.startWC k) → i < j) ∧
    ((wcs.find k).isSome = true →
      Event.startWC k ∉ (startAllWatchControllers newErr confs wcs).2.2) :=
  ⟨syncGC_nodup_keys newErr wcs ctrl hnd,
   mcSync_nodup_keys newErr lister wcs key hnd,
   startAll_nodup_keys newErr confs wcs hnd,
   fun hgi hgj => syncGC_stop_before_start newErr wcs ctrl k i j hgi hgj,
   fun hreg => startAll_no_start_when_registered newErr confs wcs k hreg⟩

/-- Witness for C1 at concrete inputs: a spec change on `"ns1/c1"` with
one controller registered gives the trace stop-construct-start, key
uniqueness is preserved, and a Config pass does not start the already
registered key. -/
theorem C1_one_controller_per_key_witness :
    (syncGenericController (fun _ => none) sampleMap
        sampleCtrlSpec2).2.1.keys.Nodup ∧
    (0 : Nat) < 2 ∧
    Event.startWC "ns1/c1"
      ∉ (startAllWatchControllers (fun _ => none) [sampleCtrl2]
          sampleMap).2.2 := by
  have h := C1_one_controller_per_key (fun _ => none)
    (fun _ _ => ListerResult.notFound) sampleMap sampleCtrlSpec2
    "ns1/c1" "ns1/c1" [sampleCtrl2] 0 2 (by decide)
  exact ⟨h.1, h.2.2.2.1 (by decide) (by decide), h.2.2.2.2 (by decide)⟩

/-- Claim C6: a Config pass reports `(true, nil)` exactly when every
configured definition key ends up registered; among configured
definitions sharing a key only the first is constructed and registered
(later duplicates are skipped, never merged) and every key is started
at most once per pass. -/
theorem C6_startAll_success_iff_and_dedup
    (newErr : NewWCOracle) (confs : List GenericController)
    (wcs : WCMap) :
    ((startAllWatchControllers newErr confs wcs).1.1 = true ↔
      ∀ conf ∈ confs,
        (((startAllWatchControllers newErr confs wcs).2.1).find
          conf.Key).isSome = true) ∧
    (∀ k, wcs.find k = none →
      (startAllWatchControllers newErr confs wcs).1.1 = true →
      (startAllWatchControllers newErr confs wcs).2.1.find k
        = (confs.find? (fun c => c.Key == k)).map
            (fun c => watchController.mk c)) ∧
    (∀ k, ((startAllWatchControllers newErr confs wcs).2.2.count
        (Event.startWC k)) ≤ 1) := by
  refine ⟨⟨fun hs => startAll_success_all_registered newErr confs wcs hs,
      ?_⟩,
    fun k hnone hs => startAll_first_config_wins newErr confs wcs k hnone
      hs,
    fun k => startAll_start_count_le_one newErr confs wcs k⟩
  intro hall
  by_contra hfalse
  have hs : (startAllWatchControllers newErr confs wcs).1.1 = false := by
    cases hb : (startAllWatchControllers newErr confs wcs).1.1
    · rfl
    · exact absurd hb hfalse
  obtain ⟨conf, hconf, hnone⟩ :=
    startAll_failure_exists_unregistered newErr confs wcs hs
  have := hall conf hconf
  rw [hnone] at this
  simp at this

/-- Witness for C6 at concrete inputs: two configs with the same key
`"ns1/c1"` but different specs; the pass succeeds, the registered
controller is built from the first config, and the key is started only
once. -/
theorem C6_startAll_success_iff_and_dedup_witness :
    (startAllWatchControllers (fun _ => none)
        [sampleCtrl, sampleCtrlSpec2] []).1.1 = true ∧
    (startAllWatchControllers (fun _ => none)
        [sampleCtrl, sampleCtrlSpec2] []).2.1.find "ns1/c1"
      = some (watchController.mk sampleCtrl) ∧
    ((startAllWatchControllers (fun _ => none)
        [sampleCtrl, sampleCtrlSpec2] []).2.2.count
          (Event.startWC "ns1/c1")) ≤ 1 := by
  have h := C6_startAll_success_iff_and_dedup (fun _ => none)
    [sampleCtrl, sampleCtrlSpec2] []
  refine ⟨by decide, ?_, h.2.2 "ns1/c1"⟩
  have h2 := h.2.1 "ns1/c1" rfl (by decide)
  rw [h2]
  decide

/-- Claim C10: when a Config pass fails on some definition it returns
at that definition with the map and events accumulated over the
earlier definitions — started controllers stay registered (no
rollback) and the remaining definitions are not attempted; entries
present before a pass survive it unchanged (skipped, not restarted);
and across the wait-loop retries registered entries persist. -/
theorem C10_failure_no_rollback_and_monotone
    (newErr : NewWCOracle) (confs pre post : List GenericController)
    (conf : GenericController) (wcs : WCMap) (k e : String)
    (w : watchController) :
    (wcs.find k = some w →
      (startAllWatchControllers newErr confs wcs).2.1.find k = some w) ∧
    ((startAllWatchControllers newErr pre wcs).1.1 = true →
      (startAllWatchControllers newErr pre wcs).2.1.find conf.Key
        = none →
      newErr conf = some e →
      startAllWatchControllers newErr (pre ++ conf :: post) wcs
        = ((false, some e),
            (startAllWatchControllers newErr pre wcs).2.1,
            (startAllWatchControllers newErr pre wcs).2.2)) ∧
    ((wcs.find k).isSome = true →
      Event.startWC k ∉ (startAllWatchControllers newErr confs wcs).2.2) ∧
    (∀ (condErr : Nat → NewWCOracle) (t iv : Nat) (hpos : 0 < iv)
        (i : Nat),
      wcs.find k = some w →
      (MC.wait (fun n s => startAllWatchControllers (condErr n) confs s)
          t iv hpos i wcs).2.1.find k = some w) := by
  refine ⟨fun h => startAll_preserves_entries newErr confs wcs k w h,
    fun hpre hnone hne =>
      startAll_stops_at_failure newErr pre conf post wcs e hpre hnone hne,
    fun hreg => startAll_no_start_when_registered newErr confs wcs k hreg,
    fun condErr t iv hpos i h => ?_⟩
  exact MC.wait_preserves
    (fun n s => startAllWatchControllers (condErr n) confs s) t iv hpos
    (fun s => s.find k = some w)
    (fun n s hP => startAll_preserves_entries (condErr n) confs s k w hP)
    i wcs h

/-- Witness for C10 at concrete inputs: the pass over
`[sampleCtrl, sampleCtrl2]` from a map where `"ns1/c1"` is registered
fails on `"ns1/c2"` (whose construction errors): the registered entry
survives the pass and the whole wait loop, the failing pass stops right
at `sampleCtrl2`, and the registered key is never restarted. -/
theorem C10_failure_no_rollback_and_monotone_witness :
    (startAllWatchControllers newErrFailC2 [sampleCtrl, sampleCtrl2]
        sampleMap).2.1.find "ns1/c1" = some sampleWC ∧
    startAllWatchControllers newErrFailC2
        ([sampleCtrl] ++ sampleCtrl2 :: []) sampleMap
      = ((false, some "boom"),
          (startAllWatchControllers newErrFailC2 [sampleCtrl]
            sampleMap).2.1,
          (startAllWatchControllers newErrFailC2 [sampleCtrl]
            sampleMap).2.2) ∧
    Event.startWC "ns1/c1"
      ∉ (startAllWatchControllers newErrFailC2 [sampleCtrl, sampleCtrl2]
          sampleMap).2.2 ∧
    (MC.wait (fun n s => startAllWatchControllers
        ((fun _ => newErrFailC2) n) [sampleCtrl, sampleCtrl2] s)
        3 1 Nat.one_pos 0 sampleMap).2.1.find "ns1/c1"
      = some sampleWC := by
  have h := C10_failure_no_rollback_and_monotone newErrFailC2
    [sampleCtrl, sampleCtrl2] [sampleCtrl] [] sampleCtrl2 sampleMap
    "ns1/c1" "boom" sampleWC
  exact ⟨h.1 (by decide), h.2.1 (by decide) (by decide) (by decide),
    h.2.2.1 (by decide),
    h.2.2.2 (fun _ => newErrFailC2) 3 1 Nat.one_pos 0 (by decide)⟩

/-- A successfully constructed `ConfigBasedMetaController` carries the
default wait timeout of 30 minutes (1800 s) and the default wait
interval of 1 second. -/
theorem NewConfig_ok_defaults
    (loadFromPath : String → Except String (List GenericController))
    (configPath : String)
    (fnResult : Option (Except String (List GenericController)))
    (workerCount : Nat) (mc : ConfigBasedMetaController)
    (hres : (NewConfigBasedMetaController loadFromPath configPath fnResult
      workerCount).result = Except.ok mc) :
    mc.WaitTimeoutForCondition = 1800 ∧ mc.WaitIntervalForCondition = 1 := by
  by_cases hpath : configPath = ""
  · subst hpath
    cases fnResult with
    | none => simp [NewConfigBasedMetaController] at hres
    | some r =>
        cases r with
        | error e => simp [NewConfigBasedMetaController] at hres
        | ok g =>
            simp [NewConfigBasedMetaController] at hres
            subst hres
            exact ⟨rfl, rfl⟩
  · cases hl : loadFromPath configPath with
    | error e => simp [NewConfigBasedMetaController, hpath, hl] at hres
    | ok g =>
        simp [NewConfigBasedMetaController, hpath, hl] at hres
        subst hres
        exact ⟨rfl, rfl⟩

/-- Claim C5: the wait loop returns nil as soon as an attempt reports
done with no error (provided the timeout was not exceeded earlier);
when the condition keeps failing it terminates with the timeout error;
`Start` turns that error into a fatal outcome; and construction sets
the defaults of 1800 s timeout and 1 s interval. -/
theorem C5_wait_poll_timeout_fatal_defaults
    (cond : WaitCondition) (timeout interval : Nat) (hpos : 0 < interval)
    (s0 : WCMap) (m : Nat) :
    (waitAttemptOK cond s0 m →
      (∀ j, j < m → ¬waitAttemptOK cond s0 j) →
      (∀ j, j < m → ¬timeout < j * interval) →
      (MC.wait cond timeout interval hpos 0 s0).1 = none) ∧
    ((∀ j, ¬waitAttemptOK cond s0 j) →
      (MC.wait cond timeout interval hpos 0 s0).1
        = some "Wait condition timed out") ∧
    (∀ loadFromPath configPath fnResult workerCount
        (mc : ConfigBasedMetaController),
      (NewConfigBasedMetaController loadFromPath configPath fnResult
          workerCount).result = Except.ok mc →
      mc.WaitTimeoutForCondition = 1800 ∧
        mc.WaitIntervalForCondition = 1) ∧
    (∀ (newErr : Nat → NewWCOracle) (mc : ConfigBasedMetaController)
        (hp : 0 < mc.WaitIntervalForCondition),
      (∀ j, ¬waitAttemptOK
          (fun i wcs => startAllWatchControllers (newErr i)
            mc.GenericControllerConfigs wcs)
          mc.WatchControllers j) →
      (mc.Start newErr hp).1
        = StartOutcome.fatal "Wait condition timed out") := by
  refine ⟨fun hok hfail htime =>
      MC.wait_returns_nil cond timeout interval hpos s0 m hok hfail htime,
    fun hfail => MC.wait_times_out cond timeout interval hpos s0 hfail,
    fun loadFromPath configPath fnResult workerCount mc hres =>
      NewConfig_ok_defaults loadFromPath configPath fnResult workerCount
        mc hres,
    fun newErr mc hp hfail => ?_⟩
  have hw := MC.wait_times_out
    (fun i wcs => startAllWatchControllers (newErr i)
      mc.GenericControllerConfigs wcs)
    mc.WaitTimeoutForCondition mc.WaitIntervalForCondition hp
    mc.WatchControllers hfail
  simp [ConfigBasedMetaController.Start, hw]

/-- When every attempt leaves the map unchanged, the wait-loop state
sequence is constant. -/
theorem waitStates_const (cond : WaitCondition) (s0 : WCMap)
    (h : ∀ i, (cond i s0).2.1 = s0) : ∀ j, waitStates cond s0 j = s0 := by
  intro j
  induction j with
  | zero => rfl
  | succ j ih => rw [waitStates, ih, h j]

/-- Witness for C5 at concrete inputs: a condition that succeeds at
attempt 2 within a 10 s timeout makes wait return nil; an always
failing condition makes wait return the timeout error with a 3 s
timeout; a config supervisor whose only definition can never be
constructed starts fatally. -/
theorem C5_wait_poll_timeout_fatal_defaults_witness :
    (MC.wait succeedsAtTwoCond 10 1 Nat.one_pos 0 []).1 = none ∧
    (MC.wait alwaysFalseCond 3 1 Nat.one_pos 0 []).1
      = some "Wait condition timed out" ∧
    (ConfigBasedMetaController.Start (fun _ => newErrFailC2)
        { ConfigPath := ""
          GenericControllerConfigs := [sampleCtrl2]
          WaitTimeoutForCondition := 2
          WaitIntervalForCondition := 1
          WatchControllers := []
          WorkerCount := 1 } Nat.one_pos).1
      = StartOutcome.fatal "Wait condition timed out" := by
  refine ⟨?_, ?_, ?_⟩
  · exact (C5_wait_poll_timeout_fatal_defaults succeedsAtTwoCond 10 1
      Nat.one_pos [] 2).1
      (by rw [waitAttemptOK]; exact ⟨rfl, rfl⟩)
      (by
        intro j hj
        rw [waitAttemptOK]
        interval_cases j <;> decide)
      (by intro j hj; omega)
  · exact (C5_wait_poll_timeout_fatal_defaults alwaysFalseCond 3 1
      Nat.one_pos [] 0).2.1
      (by
        intro j
        rw [waitAttemptOK]
        simp [alwaysFalseCond])
  · refine (C5_wait_poll_timeout_fatal_defaults alwaysFalseCond 3 1
      Nat.one_pos [] 0).2.2.2 (fun _ => newErrFailC2) _ Nat.one_pos ?_
    intro j
    rw [waitAttemptOK, waitStates_const _ _ (fun i => rfl) j]
    show ¬((startAllWatchControllers newErrFailC2 [sampleCtrl2] []).1.2
        = none ∧
      (startAllWatchControllers newErrFailC2 [sampleCtrl2] []).1.1 = true)
    decide

/-! ## Stop-sequence lemmas -/

/-- Elements of the child-stop tail are spawn events or the final
join. -/
theorem stopTail_cases (ks : List String) (e : StopEvent)
    (he : e ∈ ks.map StopEvent.spawnStopWC ++ [StopEvent.joinAllStops]) :
    (∃ k, e = StopEvent.spawnStopWC k) ∨ e = StopEvent.joinAllStops := by
  rcases List.mem_append.mp he with h | h
  · obtain ⟨k, _hk, hke⟩ := List.mem_map.mp h
    exact Or.inl ⟨k, hke.symm⟩
  · right; simpa using h

/-- In the Config stop sequence the wait on `doneCh` is the first
step. -/
theorem configStop_waitDone_idx (wcs : WCMap) (i : Nat)
    (h : (ConfigBasedMetaController.Stop wcs).get? i
      = some StopEvent.waitSupervisorDone) : i = 0 := by
  rcases i with _ | i
  · rfl
  · exfalso
    rw [ConfigBasedMetaController.Stop, List.get?_cons_succ] at h
    rcases stopTail_cases wcs.keys _ (List.get?_mem h) with ⟨k, hk⟩ | hk <;>
      simp at hk

/-- Child stops appear strictly after the first step of the Config
stop sequence. -/
theorem configStop_spawn_pos (wcs : WCMap) (k : String) (j : Nat)
    (h : (ConfigBasedMetaController.Stop wcs).get? j
      = some (StopEvent.spawnStopWC k)) : 0 < j := by
  rcases j with _ | j
  · rw [ConfigBasedMetaController.Stop, List.get?_cons_zero] at h
    simp at h
  · omega

/-- In the CRD stop sequence the wait on `doneCh` is the third step. -/
theorem crdStop_waitDone_idx (wcs : WCMap) (i : Nat)
    (h : (CRDBasedMetaController.Stop wcs).get? i
      = some StopEvent.waitSupervisorDone) : i = 2 := by
  rcases i with _ | _ | _ | i
  · rw [CRDBasedMetaController.Stop, List.get?_cons_zero] at h
    simp at h
  · rw [CRDBasedMetaController.Stop, List.get?_cons_succ,
      List.get?_cons_zero] at h
    simp at h
  · rfl
  · exfalso
    rw [CRDBasedMetaController.Stop, List.get?_cons_succ,
      List.get?_cons_succ, List.get?_cons_succ] at h
    rcases stopTail_cases wcs.keys _ (List.get?_mem h) with ⟨k, hk⟩ | hk <;>
      simp at hk

/-- Child stops appear from the fourth step on in the CRD stop
sequence. -/
theorem crdStop_spawn_ge (wcs : WCMap) (k : String) (j : Nat)
    (h : (CRDBasedMetaController.Stop wcs).get? j
      = some (StopEvent.spawnStopWC k)) : 3 ≤ j := by
  rcases j with _ | _ | _ | j
  · rw [CRDBasedMetaController.Stop, List.get?_cons_zero] at h
    simp at h
  · rw [CRDBasedMetaController.Stop, List.get?_cons_succ,
      List.get?_cons_zero] at h
    simp at h
  · rw [CRDBasedMetaController.Stop, List.get?_cons_succ,
      List.get?_cons_succ, List.get?_cons_zero] at h
    simp at h
  · omega

/-- Closing the stop channel is the first step of the CRD stop
sequence. -/
theorem crdStop_close_idx (wcs : WCMap) (i : Nat)
    (h : (CRDBasedMetaController.Stop wcs).get? i
      = some StopEvent.closeStopCh) : i = 0 := by
  rcases i with _ | _ | _ | i
  · rfl
  · rw [CRDBasedMetaController.Stop, List.get?_cons_succ,
      List.get?_cons_zero] at h
    simp at h
  · rw [CRDBasedMetaController.Stop, List.get?_cons_succ,
      List.get?_cons_succ, List.get?_cons_zero] at h
    simp at h
  · exfalso
    rw [CRDBasedMetaController.Stop, List.get?_cons_succ,
      List.get?_cons_succ, List.get?_cons_succ] at h
    rcases stopTail_cases wcs.keys _ (List.get?_mem h) with ⟨k, hk⟩ | hk <;>
      simp at hk

/-- Shutting the queue down is the second step of the CRD stop
sequence. -/
theorem crdStop_shutdown_idx (wcs : WCMap) (i : Nat)
    (h : (CRDBasedMetaController.Stop wcs).get? i
      = some StopEvent.queueShutDown) : i = 1 := by
  rcases i with _ | _ | _ | i
  · rw [CRDBasedMetaController.Stop, List.get?_cons_zero] at h
    simp at h
  · rfl
  · rw [CRDBasedMetaController.Stop, List.get?_cons_succ,
      List.get?_cons_succ, List.get?_cons_zero] at h
    simp at h
  · exfalso
    rw [CRDBasedMetaController.Stop, List.get?_cons_succ,
      List.get?_cons_succ, List.get?_cons_succ] at h
    rcases stopTail_cases wcs.keys _ (List.get?_mem h) with ⟨k, hk⟩ | hk <;>
      simp at hk

/-- Every registered key gets a child-stop step in the Config stop
sequence. -/
theorem configStop_spawn_mem (wcs : WCMap) (k : String)
    (hk : k ∈ wcs.keys) :
    StopEvent.spawnStopWC k ∈ ConfigBasedMetaController.Stop wcs := by
  rw [ConfigBasedMetaController.Stop]
  exact List.mem_cons_of_mem _
    (List.mem_append_left _ (List.mem_map_of_mem _ hk))

/-- Every registered key gets a child-stop step in the CRD stop
sequence. -/
theorem crdStop_spawn_mem (wcs : WCMap) (k : String)
    (hk : k ∈ wcs.keys) :
    StopEvent.spawnStopWC k ∈ CRDBasedMetaController.Stop wcs := by
  rw [CRDBasedMetaController.Stop]
  exact List.mem_cons_of_mem _ (List.mem_cons_of_mem _
    (List.mem_cons_of_mem _
      (List.mem_append_left _ (List.mem_map_of_mem _ hk))))

/-- The join of all child stops is the final step of the Config stop
sequence. -/
theorem configStop_last (wcs : WCMap) :
    (ConfigBasedMetaController.Stop wcs).getLast?
      = some StopEvent.joinAllStops := by
  rw [ConfigBasedMetaController.Stop,
    show StopEvent.waitSupervisorDone ::
        (wcs.keys.map StopEvent.spawnStopWC ++ [StopEvent.joinAllStops])
      = (StopEvent.waitSupervisorDone ::
          wcs.keys.map StopEvent.spawnStopWC) ++ [StopEvent.joinAllStops]
      from rfl]
  exact List.getLast?_concat _

/-- The join of all child stops is the final step of the CRD stop
sequence. -/
theorem crdStop_last (wcs : WCMap) :
    (CRDBasedMetaController.Stop wcs).getLast?
      = some StopEvent.joinAllStops := by
  rw [CRDBasedMetaController.Stop,
    show StopEvent.closeStopCh :: StopEvent.queueShutDown ::
        StopEvent.waitSupervisorDone ::
        (wcs.keys.map StopEvent.spawnStopWC ++ [StopEvent.joinAllStops])
      = (StopEvent.closeStopCh :: StopEvent.queueShutDown ::
          StopEvent.waitSupervisorDone ::
          wcs.keys.map StopEvent.spawnStopWC) ++ [StopEvent.joinAllStops]
      from rfl]
  exact List.getLast?_concat _

/-- The Config stop sequence contains no signalling step. -/
theorem configStop_no_signal (wcs : WCMap) :
    StopEvent.closeStopCh ∉ ConfigBasedMetaController.Stop wcs ∧
    StopEvent.queueShutDown ∉ ConfigBasedMetaController.Stop wcs := by
  constructor <;>
  · intro hmem
    rw [ConfigBasedMetaController.Stop] at hmem
    rcases List.mem_cons.mp hmem with h | h
    · simp at h
    · rcases stopTail_cases wcs.keys _ h with ⟨k, hk⟩ | hk <;> simp at hk

/-- Counterexample to claim C4: the claim says that for both variants
`Stop()` first causes the supervisor loop to exit.  The Config
variant's `Stop` performs no signalling step at all — neither a stop
channel close nor a queue shutdown occurs in its step sequence (here at
a concrete map with one registered controller); it merely blocks on
`doneCh` until the wait loop finishes on its own. -/
theorem C4_counterexample :
    StopEvent.closeStopCh ∉ ConfigBasedMetaController.Stop sampleMap ∧
    StopEvent.queueShutDown ∉ ConfigBasedMetaController.Stop sampleMap := by
  constructor <;> decide

/-- Claim C4 amended: in both variants the wait on the completion
channel precedes every child stop, every registered key gets a child
stop, and joining them is the final step; the CRD variant additionally
signals its worker loop (stop-channel close, queue shutdown) before the
wait, while the Config variant performs no signalling and only waits
for its loop to finish on its own. -/
theorem C4_stop_sequencing (wcs : WCMap) (k : String) (i j : Nat) :
    ((ConfigBasedMetaController.Stop wcs).get? i
        = some StopEvent.waitSupervisorDone →
      (ConfigBasedMetaController.Stop wcs).get? j
        = some (StopEvent.spawnStopWC k) → i < j) ∧
    ((CRDBasedMetaController.Stop wcs).get? i
        = some StopEvent.waitSupervisorDone →
      (CRDBasedMetaController.Stop wcs).get? j
        = some (StopEvent.spawnStopWC k) → i < j) ∧
    (((CRDBasedMetaController.Stop wcs).get? i
          = some StopEvent.closeStopCh ∨
        (CRDBasedMetaController.Stop wcs).get? i
          = some StopEvent.queueShutDown) →
      (CRDBasedMetaController.Stop wcs).get? j
        = some StopEvent.waitSupervisorDone → i < j) ∧
    (k ∈ wcs.keys →
      StopEvent.spawnStopWC k ∈ ConfigBasedMetaController.Stop wcs) ∧
    (k ∈ wcs.keys →
      StopEvent.spawnStopWC k ∈ CRDBasedMetaController.Stop wcs) ∧
    ((ConfigBasedMetaController.Stop wcs).getLast?
      = some StopEvent.joinAllStops) ∧
    ((CRDBasedMetaController.Stop wcs).getLast?
      = some StopEvent.joinAllStops) ∧
    (StopEvent.closeStopCh ∉ ConfigBasedMetaController.Stop wcs ∧
      StopEvent.queueShutDown ∉ ConfigBasedMetaController.Stop wcs) := by
  refine ⟨fun hi hj => ?_, fun hi hj => ?_, fun hi hj => ?_,
    fun hk => configStop_spawn_mem wcs k hk,
    fun hk => crdStop_spawn_mem wcs k hk,
    configStop_last wcs, crdStop_last wcs, configStop_no_signal wcs⟩
  · have h0 := configStop_waitDone_idx wcs i hi
    have h1 := configStop_spawn_pos wcs k j hj
    omega
  · have h0 := crdStop_waitDone_idx wcs i hi
    have h1 := crdStop_spawn_ge wcs k j hj
    omega
  · have h1 := crdStop_waitDone_idx wcs j hj
    rcases hi with hc | hq
    · have := crdStop_close_idx wcs i hc
      omega
    · have := crdStop_shutdown_idx wcs i hq
      omega

/-- Witness for the amended C4 at concrete inputs: with one registered
controller, the Config stop waits first (step 0) and spawns the child
stop afterwards (step 1), the child stop for the registered key is
present in the CRD sequence, the join is last, and no signalling step
occurs in the Config sequence. -/
theorem C4_stop_sequencing_witness :
    (0 : Nat) < 1 ∧
    StopEvent.spawnStopWC "ns1/c1" ∈ CRDBasedMetaController.Stop sampleMap ∧
    (ConfigBasedMetaController.Stop sampleMap).getLast?
      = some StopEvent.joinAllStops ∧
    StopEvent.closeStopCh ∉ ConfigBasedMetaController.Stop sampleMap := by
  have h := C4_stop_sequencing sampleMap "ns1/c1" 0 1
  exact ⟨h.1 (by decide) (by decide), h.2.2.2.2.1 (by decide),
    h.2.2.2.2.2.1, h.2.2.2.2.2.2.2.1⟩
